import Mathlib

/-!
Verification development for the versioner-cli event submission pipeline.

The Go sources are shallowly embedded as executable Lean definitions:

* `Status` — the status normalizer (`internal/status/validator.go`).
* `Cmd` — metadata parsing and reconciliation (`internal/cmd/metadata.go`).
* `Cicd` — CI/CD environment detection (`internal/cicd`); the process
  environment is a read-only snapshot `Env : String → String` (Go's
  `os.Getenv` returns `""` for unset variables); the out-of-bounds string
  slice `s[:8]` (a Go panic) is modelled by `Option`, with `none` meaning
  the detection routine panics.
* `Api` — the resilient submission client (`internal/api`); a single HTTP
  attempt is an opaque `AttemptResult` (transport error, or a response with
  a status code and a decoded body), and a scripted transport is a function
  from the attempt index to its result.

Go byte strings are modelled by Lean `String`; on the ASCII data handled
here byte length and character length coincide.  Go maps are modelled by
association lists observed only through `List.lookup`.
-/

namespace Model

/-- A JSON value, the model of Go's `interface{}` holding decoded JSON
(`encoding/json`).  Numbers are kept as their literal text, which is all
the embedded code ever needs. -/
inductive Json where
  | null : Json
  | bool (b : Bool) : Json
  | num (lit : String) : Json
  | str (s : String) : Json
  | arr (elems : List Json) : Json
  | obj (fields : List (String × Json)) : Json

/-- Drop leading JSON whitespace. -/
def skipWs : List Char → List Char
  | [] => []
  | c :: rest =>
    if c = ' ' ∨ c = '\t' ∨ c = '\n' ∨ c = '\r' then skipWs rest else c :: rest

/-- Map a JSON escape character to the character it denotes (the unicode
escape `\\u` is handled by the caller). -/
def unescapeChar (c : Char) : Char :=
  if c = 'n' then '\n'
  else if c = 't' then '\t'
  else if c = 'r' then '\r'
  else if c = 'b' then (Char.ofNat 8)
  else if c = 'f' then (Char.ofNat 12)
  else c

/-- Value of a hexadecimal digit. -/
def hexVal (c : Char) : Option Nat :=
  if '0' ≤ c ∧ c ≤ '9' then some (c.toNat - '0'.toNat)
  else if 'a' ≤ c ∧ c ≤ 'f' then some (c.toNat - 'a'.toNat + 10)
  else if 'A' ≤ c ∧ c ≤ 'F' then some (c.toNat - 'A'.toNat + 10)
  else none

/-- Scan the body of a JSON string literal, after the opening quote;
returns the decoded content and the input after the closing quote. -/
def scanString : List Char → Option (List Char × List Char)
  | [] => none
  | c :: rest =>
    if c = '"' then some ([], rest)
    else if c = '\\' then
      match rest with
      | [] => none
      | 'u' :: h1 :: h2 :: h3 :: h4 :: rest2 =>
        match hexVal h1, hexVal h2, hexVal h3, hexVal h4 with
        | some a, some b, some c3, some d =>
          match scanString rest2 with
          | some (s, r) => some (Char.ofNat (((a * 16 + b) * 16 + c3) * 16 + d) :: s, r)
          | none => none
        | _, _, _, _ => none
      | e :: rest2 =>
        match scanString rest2 with
        | some (s, r) => some (unescapeChar e :: s, r)
        | none => none
    else
      match scanString rest with
      | some (s, r) => some (c :: s, r)
      | none => none

/-- Characters that may occur in a JSON number literal. -/
def numChar (c : Char) : Bool :=
  c.isDigit || c = '-' || c = '+' || c = '.' || c = 'e' || c = 'E'

/-- Crude validity check for a JSON number literal: nonempty, starts with
a digit or a minus sign, and contains at least one digit. -/
def validNum (cs : List Char) : Bool :=
  match cs with
  | [] => false
  | c :: _ => (c.isDigit || c = '-') && cs.any (·.isDigit)

/-- Parsing mode: a single value, the remaining elements of an array, or
the remaining fields of an object (with the elements or fields already
parsed accumulated). -/
inductive PMode where
  | value : PMode
  | elems (acc : List Json) : PMode
  | fields (acc : List (String × Json)) : PMode

/-- Fuel-indexed recursive-descent JSON parser.  In `value` mode returns
the parsed value; in `elems`/`fields` mode returns the completed array or
object.  Mirrors the grammar accepted by Go's `encoding/json`. -/
def parseJ (fuel : Nat) (mode : PMode) (cs : List Char) : Option (Json × List Char) :=
  match fuel with
  | 0 => none
  | fuel + 1 =>
    match mode with
    | .value =>
      match skipWs cs with
      | '{' :: rest => parseJ fuel (.fields []) rest
      | '[' :: rest => parseJ fuel (.elems []) rest
      | '"' :: rest =>
        match scanString rest with
        | some (s, r) => some (.str (String.mk s), r)
        | none => none
      | 't' :: 'r' :: 'u' :: 'e' :: rest => some (.bool true, rest)
      | 'f' :: 'a' :: 'l' :: 's' :: 'e' :: rest => some (.bool false, rest)
      | 'n' :: 'u' :: 'l' :: 'l' :: rest => some (.null, rest)
      | other =>
        let lit := other.takeWhile numChar
        if validNum lit then some (.num (String.mk lit), other.dropWhile numChar)
        else none
    | .elems acc =>
      match skipWs cs with
      | ']' :: rest =>
        if acc.isEmpty then some (.arr [], rest) else none
      | other =>
        match parseJ fuel .value other with
        | some (v, rest) =>
          match skipWs rest with
          | ',' :: rest2 => parseJ fuel (.elems (acc ++ [v])) rest2
          | ']' :: rest2 => some (.arr (acc ++ [v]), rest2)
          | _ => none
        | none => none
    | .fields acc =>
      match skipWs cs with
      | '}' :: rest =>
        if acc.isEmpty then some (.obj [], rest) else none
      | '"' :: rest =>
        match scanString rest with
        | some (k, r) =>
          match skipWs r with
          | ':' :: r2 =>
            match parseJ fuel .value r2 with
            | some (v, rest2) =>
              match skipWs rest2 with
              | ',' :: rest3 => parseJ fuel (.fields (acc ++ [(String.mk k, v)])) rest3
              | '}' :: rest3 => some (.obj (acc ++ [(String.mk k, v)]), rest3)
              | _ => none
            | none => none
          | _ => none
        | none => none
      | _ => none

/-- Decode a whole JSON document: one value followed only by whitespace.
Models a successful or failed `json.Unmarshal` of the input. -/
def jsonDecode (s : String) : Option Json :=
  match parseJ (2 * s.length + 4) .value s.data with
  | some (j, rest) => if skipWs rest = [] then some j else none
  | none => none

/-- Whitespace in the sense of Go's `strings.TrimSpace` (the ASCII
cases). -/
def isSpaceChar (c : Char) : Bool :=
  c = ' ' || c = '\t' || c = '\n' || c = '\r' || c = (Char.ofNat 11) || c = (Char.ofNat 12)

/-- Go's `strings.TrimSpace`: remove leading and trailing whitespace. -/
def goTrimSpace (s : String) : String :=
  String.mk (((s.data.dropWhile isSpaceChar).reverse.dropWhile isSpaceChar).reverse)

/-- Lower-case one character (Go's `strings.ToLower` on the ASCII
range). -/
def lowerChar (c : Char) : Char :=
  if 'A' ≤ c ∧ c ≤ 'Z' then Char.ofNat (c.toNat + 32) else c

/-- Go's `strings.ToLower`. -/
def goToLower (s : String) : String :=
  String.mk (s.data.map lowerChar)

/-- Go's `strings.HasPrefix s p`. -/
def strStarts (s p : String) : Bool :=
  p.data.isPrefixOf s.data

/-- Go's `strings.HasSuffix s p`. -/
def strEnds (s p : String) : Bool :=
  p.data.isSuffixOf s.data

/-- Split a character list at every occurrence of `sep`. -/
def splitChar (sep : Char) : List Char → List (List Char)
  | [] => [[]]
  | c :: rest =>
    let r := splitChar sep rest
    if c = sep then [] :: r
    else
      match r with
      | h :: t => (c :: h) :: t
      | [] => [[c]]

/-- Go's `strings.Split s (String.singleton sep)`. -/
def goSplit (s : String) (sep : Char) : List String :=
  (splitChar sep s.data).map String.mk

/-- The first `n` characters of `s` (Go byte slicing `s[:n]` on ASCII
data), implemented on the character list so that it reduces. -/
def strTake (s : String) (n : Nat) : String :=
  String.mk (s.data.take n)

/-- All but the first `n` characters of `s` (Go `s[n:]` on ASCII data). -/
def strDrop (s : String) (n : Nat) : String :=
  String.mk (s.data.drop n)

/-- All but the last `n` characters of `s`. -/
def strDropRight (s : String) (n : Nat) : String :=
  String.mk (s.data.take (s.data.length - n))

end Model

namespace Status

/-- Canonical status value (`internal/status/validator.go`). -/
def Pending : String := "pending"

/-- Canonical status value. -/
def Started : String := "started"

/-- Canonical status value. -/
def Completed : String := "completed"

/-- Canonical status value. -/
def Failed : String := "failed"

/-- Canonical status value. -/
def Aborted : String := "aborted"

/-- The five canonical lifecycle values. -/
def canonicalValues : List String := [Pending, Started, Completed, Failed, Aborted]

/-- The fixed alias table `statusAliases` mapping user input to canonical
status values (a Go map, modelled as an association list). -/
def statusAliases : List (String × String) :=
  [ ("pending", Pending), ("started", Started), ("completed", Completed),
    ("failed", Failed), ("aborted", Aborted),
    ("queued", Pending), ("scheduled", Pending),
    ("in_progress", Started), ("init", Started), ("building", Started),
    ("deploying", Started),
    ("success", Completed), ("complete", Completed), ("finished", Completed),
    ("built", Completed), ("deployed", Completed),
    ("fail", Failed), ("failure", Failed), ("error", Failed),
    ("abort", Aborted), ("cancelled", Aborted), ("cancel", Aborted),
    ("skipped", Aborted) ]

/-- `Normalize` converts a status value to its canonical form, returning
the canonical status and whether normalization occurred. -/
def Normalize (status : String) : String × Bool :=
  let normalized := Model.goToLower (Model.goTrimSpace status)
  match statusAliases.lookup normalized with
  | some canonical => (canonical, normalized != canonical)
  | none => (status, false)

/-- `IsValid` checks if a status value is canonical or a known alias. -/
def IsValid (status : String) : Bool :=
  (statusAliases.lookup (Model.goToLower (Model.goTrimSpace status))).isSome

/-- `GetCanonical` returns the canonical form of a status value. -/
def GetCanonical (status : String) : String :=
  (Normalize status).1

end Status

namespace Cmd

open Model

/-- `MaxMetadataSize` is the maximum size for extra metadata in bytes
(100 KB), from `internal/cmd/metadata.go`. -/
def MaxMetadataSize : Nat := 100 * 1024

/-- The local validation errors `ParseExtraMetadata` can produce.  The
`MalformedInput` constructor carries the Go error message (both the
unmarshal failure and the explicit null rejection are malformed-input
errors in the spec's taxonomy). -/
inductive MetadataError where
  | SizeExceeded (got : Nat) : MetadataError
  | MalformedInput (msg : String) : MetadataError

/-- Whether a parse result is a malformed-input failure. -/
def isMalformed (r : Except MetadataError (Option (List (String × Json)))) : Bool :=
  match r with
  | .error (.MalformedInput _) => true
  | _ => false

/-- `ParseExtraMetadata` parses and validates a JSON string for extra
metadata.  `Except.ok none` is the explicit no-document result for empty
input; `Except.ok (some fields)` is a parsed object. -/
def ParseExtraMetadata (jsonStr : String) : Except MetadataError (Option (List (String × Json))) :=
  if jsonStr = "" then .ok none
  else if jsonStr.length > MaxMetadataSize then .error (.SizeExceeded jsonStr.length)
  else
    match jsonDecode jsonStr with
    | none => .error (.MalformedInput "invalid JSON for extra_metadata")
    | some (.obj fields) => .ok (some fields)
    | some .null => .error (.MalformedInput "extra_metadata must be a JSON object, not null")
    | some _ => .error (.MalformedInput "invalid JSON for extra_metadata")

/-- A Go `map[string]interface{}`, modelled as an association list whose
observable behaviour is `List.lookup`. -/
abbrev Metadata := List (String × Json)

/-- Map update `m[k] = v`: replace the binding for `k` if one exists,
otherwise add one. -/
def minsert : Metadata → String → Json → Metadata
  | [], k, v => [(k, v)]
  | p :: rest, k, v => if p.1 == k then (k, v) :: rest else p :: minsert rest k v

/-- Copy every entry of `src` into `dst`, in order (a Go
`for k, v := range src { dst[k] = v }` loop). -/
def mcopyInto (dst src : Metadata) : Metadata :=
  src.foldl (fun acc kv => minsert acc kv.1 kv.2) dst

/-- `MergeMetadata` merges auto-detected metadata with user-provided
metadata; user-provided values take precedence. -/
def MergeMetadata (autoDetected userProvided : Metadata) : Metadata :=
  if autoDetected.isEmpty then userProvided
  else if userProvided.isEmpty then autoDetected
  else mcopyInto (mcopyInto [] autoDetected) userProvided

/-- The keys of a metadata map. -/
def mkeys (m : Metadata) : List String := m.map Prod.fst

/-- Lookup in a metadata map (`m[k]` on the Go side). -/
def mfind : Metadata → String → Option Json
  | [], _ => none
  | p :: rest, k => if p.1 = k then some p.2 else mfind rest k

end Cmd

namespace Cicd

/-- A read-only snapshot of the process environment; `env k` is
`os.Getenv(k)`, the empty string when the variable is unset. -/
def Env := String → String

/-- System tag `github` (the Go `System` type is a string). -/
def SystemGitHub : String := "github"

/-- System tag `gitlab`. -/
def SystemGitLab : String := "gitlab"

/-- System tag `jenkins`. -/
def SystemJenkins : String := "jenkins"

/-- System tag `circleci`. -/
def SystemCircleCI : String := "circleci"

/-- System tag `bitbucket`. -/
def SystemBitbucket : String := "bitbucket"

/-- System tag `azure-devops`. -/
def SystemAzure : String := "azure-devops"

/-- System tag `travis`. -/
def SystemTravis : String := "travis"

/-- System tag `rundeck`. -/
def SystemRundeck : String := "rundeck"

/-- System tag `unknown`. -/
def SystemUnknown : String := "unknown"

/-- `DetectedValues` holds auto-detected values from the CI/CD
environment; a fresh value has every field empty. -/
structure DetectedValues where
  System : String := SystemUnknown
  Product : String := ""
  Version : String := ""
  SCMRepository : String := ""
  SCMSha : String := ""
  SCMBranch : String := ""
  BuildNumber : String := ""
  BuildURL : String := ""
  InvokeID : String := ""
  BuiltBy : String := ""
  BuiltByEmail : String := ""
  BuiltByName : String := ""
deriving DecidableEq, Repr

/-- `detectSystem` identifies which CI/CD system is running. -/
def detectSystem (env : Env) : String :=
  if env "GITHUB_ACTIONS" = "true" then SystemGitHub
  else if env "GITLAB_CI" = "true" then SystemGitLab
  else if env "JENKINS_URL" ≠ "" then SystemJenkins
  else if env "CIRCLECI" = "true" then SystemCircleCI
  else if env "BITBUCKET_BUILD_NUMBER" ≠ "" then SystemBitbucket
  else if env "TF_BUILD" = "True" then SystemAzure
  else if env "TRAVIS" = "true" then SystemTravis
  else if env "RD_JOB_ID" ≠ "" then SystemRundeck
  else SystemUnknown

/-- The Go string slice `s[:n]`, which panics (`none`) when `n` exceeds
the length of `s`. -/
def goSliceTo (s : String) (n : Nat) : Option String :=
  if n ≤ s.length then some (Model.strTake s n) else none

/-- Drop `p` from the front of `s` when it is there, otherwise return
`s` unchanged (the Go standard library's front-trimming helper). -/
def dropFront (s p : String) : String :=
  if Model.strStarts s p then Model.strDrop s p.length else s

/-- Go's `strings.TrimSuffix`: drop `p` from the end of `s` when it is
there, otherwise return `s` unchanged. -/
def dropBack (s p : String) : String :=
  if Model.strEnds s p then Model.strDropRight s p.length else s

/-- Replace the first `:` of a character list with `/`. -/
def replaceFirstColon : List Char → List Char
  | [] => []
  | c :: rest => if c = ':' then '/' :: rest else c :: replaceFirstColon rest

/-- `normalizeGitURL` removes protocol and `.git` decorations from Git
URLs and converts `host:owner/repo` to `host/owner/repo`. -/
def normalizeGitURL (url : String) : String :=
  let url := dropFront url "https://"
  let url := dropFront url "http://"
  let url := dropFront url "git@"
  let url := dropBack url ".git"
  String.mk (replaceFirstColon url.data)

/-- `detectGitHub` extracts values from a GitHub Actions environment;
`none` models the panic of the short-SHA slice. -/
def detectGitHub (env : Env) (d0 : DetectedValues) : Option DetectedValues :=
  let d := { d0 with
    SCMRepository := env "GITHUB_REPOSITORY"
    SCMSha := env "GITHUB_SHA"
    SCMBranch := env "GITHUB_REF_NAME"
    InvokeID := env "GITHUB_RUN_ID"
    BuildNumber := env "GITHUB_RUN_NUMBER"
    BuiltBy := env "GITHUB_ACTOR" }
  let serverURL := env "GITHUB_SERVER_URL"
  let repo := env "GITHUB_REPOSITORY"
  let runID := env "GITHUB_RUN_ID"
  let d := if serverURL ≠ "" ∧ repo ≠ "" ∧ runID ≠ "" then
      { d with BuildURL := serverURL ++ "/" ++ repo ++ "/actions/runs/" ++ runID }
    else d
  let d := if d.Product = "" ∧ d.SCMRepository ≠ "" then
      match Model.goSplit d.SCMRepository '/' with
      | [_, p] => { d with Product := p }
      | _ => d
    else d
  if d.Version = "" ∧ d.SCMSha ≠ "" then
    match goSliceTo d.SCMSha 8 with
    | some v => some { d with Version := v }
    | none => none
  else some d

/-- `detectGitLab` extracts values from a GitLab CI environment. -/
def detectGitLab (env : Env) (d0 : DetectedValues) : Option DetectedValues :=
  let d := { d0 with
    SCMRepository := env "CI_PROJECT_PATH"
    SCMSha := env "CI_COMMIT_SHA"
    SCMBranch := env "CI_COMMIT_REF_NAME"
    InvokeID := env "CI_PIPELINE_ID"
    BuildNumber := env "CI_PIPELINE_IID"
    BuildURL := env "CI_PIPELINE_URL"
    BuiltBy := env "GITLAB_USER_LOGIN"
    BuiltByEmail := env "GITLAB_USER_EMAIL"
    BuiltByName := env "GITLAB_USER_NAME" }
  let d := if d.Product = "" ∧ d.SCMRepository ≠ "" then
      match (Model.goSplit d.SCMRepository '/').getLast? with
      | some p => { d with Product := p }
      | none => d
    else d
  if d.Version = "" ∧ d.SCMSha ≠ "" then
    match goSliceTo d.SCMSha 8 with
    | some v => some { d with Version := v }
    | none => none
  else some d

/-- `detectJenkins` extracts values from a Jenkins environment. -/
def detectJenkins (env : Env) (d0 : DetectedValues) : Option DetectedValues :=
  let d := { d0 with
    SCMRepository := normalizeGitURL (env "GIT_URL")
    SCMSha := env "GIT_COMMIT"
    SCMBranch := env "GIT_BRANCH"
    BuildNumber := env "BUILD_NUMBER"
    InvokeID := env "BUILD_ID"
    BuildURL := env "BUILD_URL"
    BuiltBy := env "BUILD_USER"
    BuiltByEmail := env "BUILD_USER_EMAIL" }
  let d := if d.Product = "" ∧ d.SCMRepository ≠ "" then
      match (Model.goSplit d.SCMRepository '/').getLast? with
      | some p => { d with Product := dropBack p ".git" }
      | none => d
    else d
  if d.Version = "" ∧ d.BuildNumber ≠ "" then
    some { d with Version := d.BuildNumber }
  else some d

/-- `detectCircleCI` extracts values from a CircleCI environment. -/
def detectCircleCI (env : Env) (d0 : DetectedValues) : Option DetectedValues :=
  let username := env "CIRCLE_PROJECT_USERNAME"
  let reponame := env "CIRCLE_PROJECT_REPONAME"
  let d := if username ≠ "" ∧ reponame ≠ "" then
      { d0 with SCMRepository := username ++ "/" ++ reponame }
    else d0
  let d := { d with
    SCMSha := env "CIRCLE_SHA1"
    SCMBranch := env "CIRCLE_BRANCH"
    BuildNumber := env "CIRCLE_BUILD_NUM"
    InvokeID := env "CIRCLE_WORKFLOW_ID"
    BuildURL := env "CIRCLE_BUILD_URL"
    BuiltBy := env "CIRCLE_USERNAME" }
  let d := if d.SCMBranch = "" then { d with SCMBranch := env "CIRCLE_TAG" } else d
  let d := if d.Product = "" ∧ reponame ≠ "" then { d with Product := reponame } else d
  if d.Version = "" ∧ d.SCMSha ≠ "" then
    match goSliceTo d.SCMSha 8 with
    | some v => some { d with Version := v }
    | none => none
  else some d

/-- `detectBitbucket` extracts values from a Bitbucket Pipelines
environment. -/
def detectBitbucket (env : Env) (d0 : DetectedValues) : Option DetectedValues :=
  let d := { d0 with
    SCMRepository := env "BITBUCKET_REPO_FULL_NAME"
    SCMSha := env "BITBUCKET_COMMIT"
    SCMBranch := env "BITBUCKET_BRANCH"
    BuildNumber := env "BITBUCKET_BUILD_NUMBER"
    InvokeID := env "BITBUCKET_PIPELINE_UUID" }
  let d := if d.SCMBranch = "" then { d with SCMBranch := env "BITBUCKET_TAG" } else d
  let repoFullName := env "BITBUCKET_REPO_FULL_NAME"
  let buildNum := env "BITBUCKET_BUILD_NUMBER"
  let d := if repoFullName ≠ "" ∧ buildNum ≠ "" then
      { d with BuildURL := "https://bitbucket.org/" ++ repoFullName ++ "/pipelines/results/" ++ buildNum }
    else d
  let repoSlug := env "BITBUCKET_REPO_SLUG"
  let d := if d.Product = "" ∧ repoSlug ≠ "" then { d with Product := repoSlug } else d
  if d.Version = "" ∧ d.SCMSha ≠ "" then
    match goSliceTo d.SCMSha 8 with
    | some v => some { d with Version := v }
    | none => none
  else some d

/-- `detectAzure` extracts values from an Azure DevOps environment. -/
def detectAzure (env : Env) (d0 : DetectedValues) : Option DetectedValues :=
  let d := { d0 with
    SCMRepository := env "BUILD_REPOSITORY_NAME"
    SCMSha := env "BUILD_SOURCEVERSION"
    SCMBranch := env "BUILD_SOURCEBRANCHNAME"
    BuildNumber := env "BUILD_BUILDNUMBER"
    InvokeID := env "BUILD_BUILDID"
    BuildURL := env "BUILD_BUILDURI"
    BuiltBy := env "BUILD_REQUESTEDFOR"
    BuiltByEmail := env "BUILD_REQUESTEDFOREMAIL" }
  let d := if d.Product = "" ∧ d.SCMRepository ≠ "" then
      match (Model.goSplit d.SCMRepository '/').getLast? with
      | some p => { d with Product := p }
      | none => d
    else d
  if d.Version = "" ∧ d.BuildNumber ≠ "" then
    some { d with Version := d.BuildNumber }
  else some d

/-- `detectTravis` extracts values from a Travis CI environment. -/
def detectTravis (env : Env) (d0 : DetectedValues) : Option DetectedValues :=
  let d := { d0 with
    SCMRepository := env "TRAVIS_REPO_SLUG"
    SCMSha := env "TRAVIS_COMMIT"
    SCMBranch := env "TRAVIS_BRANCH"
    BuildNumber := env "TRAVIS_BUILD_NUMBER"
    InvokeID := env "TRAVIS_BUILD_ID"
    BuildURL := env "TRAVIS_BUILD_WEB_URL" }
  let d := if d.SCMBranch = "" then { d with SCMBranch := env "TRAVIS_TAG" } else d
  let d := if d.Product = "" ∧ d.SCMRepository ≠ "" then
      match Model.goSplit d.SCMRepository '/' with
      | [_, p] => { d with Product := p }
      | _ => d
    else d
  if d.Version = "" ∧ d.SCMSha ≠ "" then
    match goSliceTo d.SCMSha 8 with
    | some v => some { d with Version := v }
    | none => none
  else some d

/-- `detectRundeck` extracts values from a Rundeck environment. -/
def detectRundeck (env : Env) (d0 : DetectedValues) : Option DetectedValues :=
  let d := { d0 with
    BuildNumber := env "RD_JOB_EXECID"
    InvokeID := env "RD_JOB_EXECID"
    BuiltBy := env "RD_JOB_USERNAME" }
  let d := if d.BuiltBy = "" then { d with BuiltBy := env "RD_JOB_USER_NAME" } else d
  let serverURL := env "RD_JOB_SERVERURL"
  let project := env "RD_JOB_PROJECT"
  let execID := env "RD_JOB_EXECID"
  let d := if serverURL ≠ "" ∧ project ≠ "" ∧ execID ≠ "" then
      { d with BuildURL := serverURL ++ "/project/" ++ project ++ "/execution/show/" ++ execID }
    else d
  let d := if d.Product = "" then { d with Product := env "RD_JOB_NAME" } else d
  if d.Version = "" ∧ execID ≠ "" then
    some { d with Version := execID }
  else some d

/-- `Detect` identifies the CI/CD system and extracts relevant values;
`none` models a panic during extraction. -/
def Detect (env : Env) : Option DetectedValues :=
  let detected : DetectedValues := { System := detectSystem env }
  if detected.System = SystemGitHub then detectGitHub env detected
  else if detected.System = SystemGitLab then detectGitLab env detected
  else if detected.System = SystemJenkins then detectJenkins env detected
  else if detected.System = SystemCircleCI then detectCircleCI env detected
  else if detected.System = SystemBitbucket then detectBitbucket env detected
  else if detected.System = SystemAzure then detectAzure env detected
  else if detected.System = SystemTravis then detectTravis env detected
  else if detected.System = SystemRundeck then detectRundeck env detected
  else some detected

end Cicd

namespace Api

open Model

/-- The result of one HTTP attempt as seen by the client: a transport
error (connection or timeout failure), or a response with a status code
and a decoded body. -/
inductive AttemptResult where
  | transportErr : AttemptResult
  | response (code : Nat) (detail : Json) : AttemptResult

/-- The failure remembered in `lastErr` by the retry loop: a network
error, or an `HTTP <code>` error from a retryable response. -/
inductive AttemptFail where
  | network : AttemptFail
  | http (code : Nat) : AttemptFail
deriving DecidableEq, Repr

/-- What `Client.doRequest` returns: a delivered response (a 2xx or a
non-retryable 4xx), or the wrapped last failure after the retry budget is
exhausted. -/
inductive ReqOutcome where
  | resp (code : Nat) (detail : Json) : ReqOutcome
  | failedAfterRetries (lastErr : Option AttemptFail) : ReqOutcome

/-- The fixed `backoffDurations` schedule, in seconds. -/
def backoffDurations : List Nat := [1, 2, 4]

/-- Observable trace of one `doRequest` call: its outcome, how many
attempts were performed, and the backoff delays slept through (in
seconds, in order). -/
structure ReqRun where
  outcome : ReqOutcome
  attempts : Nat
  delays : List Nat

/-- The retry loop of `Client.doRequest`
(`for attempt := 0; attempt <= 3; attempt++`), with `budget` the number
of loop iterations left (`4 - attempt`) and `send i` the result of the
i-th HTTP attempt. -/
def doRequestGo (send : Nat → AttemptResult) : Nat → Nat → Option AttemptFail → ReqRun
  | 0, _, lastErr => { outcome := .failedAfterRetries lastErr, attempts := 0, delays := [] }
  | budget + 1, attempt, _ =>
    let delay : List Nat := if 0 < attempt then [backoffDurations.getD (attempt - 1) 0] else []
    match send attempt with
    | .transportErr =>
      let r := doRequestGo send budget (attempt + 1) (some .network)
      { outcome := r.outcome, attempts := r.attempts + 1, delays := delay ++ r.delays }
    | .response code detail =>
      if 200 ≤ code ∧ code < 300 then
        { outcome := .resp code detail, attempts := 1, delays := delay }
      else if 400 ≤ code ∧ code < 500 ∧ code ≠ 429 then
        { outcome := .resp code detail, attempts := 1, delays := delay }
      else
        let r := doRequestGo send budget (attempt + 1) (some (.http code))
        { outcome := r.outcome, attempts := r.attempts + 1, delays := delay ++ r.delays }

/-- `Client.doRequest` performs an HTTP request with retry logic: up to
4 attempts in total. -/
def doRequest (send : Nat → AttemptResult) : ReqRun :=
  doRequestGo send 4 0 none

/-- A scripted transport: attempt `i` yields the i-th element of the
list (the loop never reads past the scripted responses in the runs we
examine; out-of-script attempts default to a transport error). -/
def seqOf (script : List AttemptResult) : Nat → AttemptResult :=
  fun i => script.getD i .transportErr

/-- Whether an attempt outcome is one the loop retries: a transport
error, or a response that is neither a 2xx nor a non-429 4xx. -/
def isRetryableFailure : AttemptResult → Bool
  | .transportErr => true
  | .response code _ =>
    decide (¬(200 ≤ code ∧ code < 300) ∧ ¬(400 ≤ code ∧ code < 500 ∧ code ≠ 429))

/-- The `lastErr` value a failing attempt leaves behind. -/
def toFail : AttemptResult → Option AttemptFail
  | .transportErr => some .network
  | .response code _ => some (.http code)

/-- `APIError` represents an error response from the API. -/
structure APIError where
  StatusCode : Nat
  Detail : Json

/-- `APIError.IsPreflightError` checks if this is a preflight check
failure (409, 423, 428). -/
def APIError.IsPreflightError (e : APIError) : Bool :=
  e.StatusCode == 409 || e.StatusCode == 423 || e.StatusCode == 428

/-- `DeploymentResponse` represents the response from creating a
deployment event. -/
structure DeploymentResponse where
  ID : String
  ProductID : String
  VersionID : String
  EnvironmentID : String
  Status : String
deriving DecidableEq, Repr

/-- `BuildResponse` represents the response from creating a build
event. -/
structure BuildResponse where
  ID : String
  ProductID : String
  VersionID : String
  Status : String
deriving DecidableEq, Repr

/-- The placeholder deployment result of a soft-failed submission: the
sentinel status and no resource identifiers. -/
def placeholderDeployment : DeploymentResponse :=
  { ID := "", ProductID := "", VersionID := "", EnvironmentID := "", Status := "not_recorded" }

/-- The placeholder build result of a soft-failed submission. -/
def placeholderBuild : BuildResponse :=
  { ID := "", ProductID := "", VersionID := "", Status := "not_recorded" }

/-- Modelled from the spec: `Client.handleAPIError` of the
soft-fail-capable client is not among the source files (only its unit
tests and its call sites are).  Per the spec, status codes 409/423/428
are always surfaced as errors regardless of `failOnAPIError`; every
other API error is surfaced when `failOnAPIError` is true and otherwise
downgraded to a placeholder result carrying the fixed sentinel status
value with no resource identifiers populated. -/
def handleAPIError (failOnAPIError : Bool) (e : APIError) : Except APIError DeploymentResponse :=
  if e.IsPreflightError then .error e
  else if failOnAPIError then .error e
  else .ok placeholderDeployment

/-- Modelled from the spec: the build-event twin of `handleAPIError`,
producing a `BuildResponse` placeholder. -/
def handleAPIErrorBuild (failOnAPIError : Bool) (e : APIError) : Except APIError BuildResponse :=
  if e.IsPreflightError then .error e
  else if failOnAPIError then .error e
  else .ok placeholderBuild

/-- The cause of a `Failed` submission outcome: a classified API error,
or exhaustion of the retry budget on transport/retryable failures. -/
inductive FailCause where
  | api (e : APIError)
  | transport (lastErr : Option AttemptFail)

/-- The tagged outcome of one submission call. -/
inductive SubmissionOutcome where
  | Recorded (body : Json)
  | NotRecorded (resp : DeploymentResponse)
  | Rejected (e : APIError)
  | Failed (cause : FailCause)

/-- Classification of a surfaced error, as `runDeploymentTrack` performs
it: a preflight failure is a policy rejection, anything else a plain
failure. -/
def classifyError (e : APIError) : SubmissionOutcome :=
  if e.IsPreflightError then .Rejected e else .Failed (.api e)

/-- Modelled from the spec: one whole submission
(`Client.CreateDeploymentEvent` of the soft-fail-capable client, absent
from the sources) on top of the source-derived retry loop `doRequest`:
a 2xx response is recorded; an error response goes through
`handleAPIError` and is then classified; an exhausted retry budget
respects `failOnAPIError`. -/
def submitDeployment (failOnAPIError : Bool) (send : Nat → AttemptResult) : SubmissionOutcome :=
  match (doRequest send).outcome with
  | .resp code detail =>
    if 200 ≤ code ∧ code < 300 then .Recorded detail
    else
      match handleAPIError failOnAPIError { StatusCode := code, Detail := detail } with
      | .ok placeholder => .NotRecorded placeholder
      | .error e => classifyError e
  | .failedAfterRetries lastErr =>
    if failOnAPIError then .Failed (.transport lastErr) else .NotRecorded placeholderDeployment

/-- The process exit code `runDeploymentTrack` maps a submission outcome
to: success and soft-failed placeholders exit 0, policy rejections exit
5, other API errors exit 4, transport failures exit 1. -/
def deploymentExitCode : SubmissionOutcome → Nat
  | .Recorded _ => 0
  | .NotRecorded _ => 0
  | .Rejected _ => 5
  | .Failed (.api _) => 4
  | .Failed (.transport _) => 1

end Api

/-- C7: `Normalize` trims and lower-cases its input; any casing or
whitespace variant of a canonical value yields that canonical value with
`wasAliased = false`; a known alias of a different canonical value yields
that canonical value with `wasAliased = true`; an input absent from the
alias table is returned unchanged with `wasAliased = false`. -/
theorem C7_normalize_spec :
    (∀ s : String, Model.goToLower (Model.goTrimSpace s) ∈ Status.canonicalValues →
      Status.Normalize s = (Model.goToLower (Model.goTrimSpace s), false)) ∧
    (∀ s c : String,
      Status.statusAliases.lookup (Model.goToLower (Model.goTrimSpace s)) = some c →
      Model.goToLower (Model.goTrimSpace s) ≠ c →
      Status.Normalize s = (c, true)) ∧
    Status.Normalize "success" = ("completed", true) ∧
    Status.Normalize "QUEUED" = ("pending", true) ∧
    (∀ s : String, Status.statusAliases.lookup (Model.goToLower (Model.goTrimSpace s)) = none →
      Status.Normalize s = (s, false)) ∧
    Status.Normalize "bogus" = ("bogus", false) := by
  refine ⟨?_, ?_, rfl, rfl, ?_, rfl⟩
  · intro s hs
    simp [Status.canonicalValues, Status.Pending, Status.Started, Status.Completed,
      Status.Failed, Status.Aborted] at hs
    rcases hs with h | h | h | h | h <;>
      (simp only [Status.Normalize, h]; rfl)
  · intro s c hlook hne
    simp only [Status.Normalize, hlook]
    simp [hne]
  · intro s hs
    simp [Status.Normalize, hs]

/-- Witness for C7 at concrete inputs, exercising the canonical, alias
and pass-through clauses. -/
theorem C7_normalize_witness :
    Status.Normalize " STARTED " = ("started", false) ∧
    Status.Normalize "FINISHED " = ("completed", true) ∧
    Status.Normalize "weird" = ("weird", false) :=
  ⟨C7_normalize_spec.1 " STARTED " (by decide),
    C7_normalize_spec.2.1 "FINISHED " "completed" (by decide) (by decide),
    C7_normalize_spec.2.2.2.2.1 "weird" (by decide)⟩
/-- Whether the input decodes as well-formed JSON whose top-level value
is not an object (an array, scalar, or null). -/
def decodesToNonObj (s : String) : Bool :=
  match Model.jsonDecode s with
  | some (.obj _) => false
  | none => false
  | some _ => true

/-- C8: `ParseExtraMetadata` rejects input over 100 KiB with a size error
before any JSON decoding (so oversized garbage gets the size error, not a
parse error); it rejects well-formed JSON whose top-level value is not an
object with a malformed-input error; the empty string yields the explicit
no-document result, distinct from the empty-object result of `{}`. -/
theorem C8_parseExtraMetadata_spec :
    (∀ s : String, s ≠ "" → s.length > Cmd.MaxMetadataSize →
      Cmd.ParseExtraMetadata s = .error (.SizeExceeded s.length)) ∧
    (∀ s : String, decodesToNonObj s = true → s.length ≤ Cmd.MaxMetadataSize →
      Cmd.isMalformed (Cmd.ParseExtraMetadata s) = true) ∧
    Cmd.ParseExtraMetadata (String.mk (List.replicate (150 * 1024) '{')) =
      .error (.SizeExceeded (150 * 1024)) ∧
    Cmd.isMalformed (Cmd.ParseExtraMetadata "[1, 2]") = true ∧
    Cmd.isMalformed (Cmd.ParseExtraMetadata "42") = true ∧
    Cmd.isMalformed (Cmd.ParseExtraMetadata "null") = true ∧
    Cmd.isMalformed (Cmd.ParseExtraMetadata "\"scalar\"") = true ∧
    Cmd.isMalformed (Cmd.ParseExtraMetadata "not json at all") = true ∧
    Cmd.ParseExtraMetadata "" = .ok none ∧
    Cmd.ParseExtraMetadata "{}" = .ok (some []) ∧
    Cmd.ParseExtraMetadata "" ≠ Cmd.ParseExtraMetadata "{}" := by
  refine ⟨?_, ?_, ?_, rfl, rfl, rfl, rfl, rfl, rfl, rfl, ?_⟩
  · intro s hne hlen
    simp [Cmd.ParseExtraMetadata, hne, hlen]
  · intro s hno hlen
    have hne : s ≠ "" := by
      intro h
      rw [h] at hno
      exact absurd hno (by decide)
    have hlt := Nat.not_lt.mpr hlen
    rcases hdec : Model.jsonDecode s with _ | j
    · rw [decodesToNonObj, hdec] at hno
      exact absurd hno (by decide)
    · cases j with
      | obj fields =>
        simp only [decodesToNonObj, hdec] at hno
        exact absurd hno (by decide)
      | null => rw [Cmd.ParseExtraMetadata, if_neg hne, if_neg hlt, hdec]; rfl
      | bool b => rw [Cmd.ParseExtraMetadata, if_neg hne, if_neg hlt, hdec]; rfl
      | num n => rw [Cmd.ParseExtraMetadata, if_neg hne, if_neg hlt, hdec]; rfl
      | str t => rw [Cmd.ParseExtraMetadata, if_neg hne, if_neg hlt, hdec]; rfl
      | arr xs => rw [Cmd.ParseExtraMetadata, if_neg hne, if_neg hlt, hdec]; rfl
  · have hbig : (String.mk (List.replicate (150 * 1024) '{')).length = 150 * 1024 := by
      show (List.replicate (150 * 1024) '{').length = 150 * 1024
      rw [List.length_replicate]
    have hne : String.mk (List.replicate (150 * 1024) '{') ≠ "" := by
      intro h
      have hlen := congrArg String.length h
      rw [hbig] at hlen
      exact absurd hlen (by decide)
    rw [Cmd.ParseExtraMetadata, if_neg hne, if_pos (by rw [hbig]; decide), hbig]
  · rw [show Cmd.ParseExtraMetadata "" = Except.ok none from rfl,
      show Cmd.ParseExtraMetadata "{}" = Except.ok (some []) from rfl]
    simp

/-- Witness for C8 at a concrete non-object input. -/
theorem C8_parseExtraMetadata_witness :
    Cmd.isMalformed (Cmd.ParseExtraMetadata "[true]") = true :=
  C8_parseExtraMetadata_spec.2.1 "[true]" (by decide) (by decide)
/-- Lookup after a single map update: the updated key maps to the new
value and every other key is untouched. -/
theorem mfind_minsert (m : Cmd.Metadata) (k : String) (v : Model.Json) (k2 : String) :
    Cmd.mfind (Cmd.minsert m k v) k2 = if k = k2 then some v else Cmd.mfind m k2 := by
  induction m with
  | nil =>
    by_cases hx : k = k2 <;> simp [Cmd.minsert, Cmd.mfind, hx]
  | cons p rest ih =>
    by_cases hp : p.1 == k <;> by_cases hx : k = k2 <;>
      simp_all [Cmd.minsert, Cmd.mfind]

/-- A key that is not among the keys of a map has no binding. -/
theorem mfind_eq_none (m : Cmd.Metadata) (k : String) (h : k ∉ Cmd.mkeys m) :
    Cmd.mfind m k = none := by
  induction m with
  | nil => simp [Cmd.mfind]
  | cons p rest ih =>
    simp only [Cmd.mkeys, List.map_cons, List.mem_cons] at h
    push_neg at h
    rw [Cmd.mfind, if_neg (fun hh => h.1 hh.symm)]
    exact ih h.2

/-- Lookup after copying `src` into `base`: bindings of `src` win. -/
theorem mfind_mcopyInto (src : Cmd.Metadata) (base : Cmd.Metadata) (k : String)
    (hnd : (Cmd.mkeys src).Nodup) :
    Cmd.mfind (Cmd.mcopyInto base src) k =
      match Cmd.mfind src k with
      | some v => some v
      | none => Cmd.mfind base k := by
  induction src generalizing base with
  | nil => simp [Cmd.mcopyInto, Cmd.mfind]
  | cons kv rest ih =>
    simp only [Cmd.mkeys, List.map_cons, List.nodup_cons] at hnd
    have hstep : Cmd.mcopyInto base (kv :: rest) =
        Cmd.mcopyInto (Cmd.minsert base kv.1 kv.2) rest := by
      simp [Cmd.mcopyInto]
    rw [hstep, ih _ (by simpa [Cmd.mkeys] using hnd.2)]
    by_cases hx : kv.1 = k
    · have hrest : Cmd.mfind rest k = none := by
        apply mfind_eq_none
        rw [← hx]
        simpa [Cmd.mkeys] using hnd.1
      simp [hrest, mfind_minsert, hx, Cmd.mfind]
    · simp [mfind_minsert, hx, Cmd.mfind]

/-- C9: `MergeMetadata` returns the other side unchanged whenever either
side is empty, and otherwise builds a new map holding every detected
entry overwritten by every user entry, so the user-supplied value wins on
every key collision. -/
theorem C9_mergeMetadata_spec :
    (∀ u : Cmd.Metadata, Cmd.MergeMetadata [] u = u) ∧
    (∀ d : Cmd.Metadata, Cmd.MergeMetadata d [] = d) ∧
    (∀ d u : Cmd.Metadata, ∀ k : String, d ≠ [] → u ≠ [] →
      (Cmd.mkeys d).Nodup → (Cmd.mkeys u).Nodup →
      Cmd.mfind (Cmd.MergeMetadata d u) k =
        match Cmd.mfind u k with
        | some v => some v
        | none => Cmd.mfind d k) ∧
    Cmd.MergeMetadata [("a", .str "1")] [("a", .str "2"), ("b", .str "3")] =
      [("a", .str "2"), ("b", .str "3")] ∧
    Cmd.MergeMetadata [] [("x", .str "1")] = [("x", .str "1")] := by
  refine ⟨fun u => rfl, ?_, ?_, rfl, rfl⟩
  · intro d
    cases d <;> rfl
  · intro d u k hd hu hndd hndu
    have hde : d.isEmpty = false := by
      cases d
      · exact absurd rfl hd
      · rfl
    have hue : u.isEmpty = false := by
      cases u
      · exact absurd rfl hu
      · rfl
    rw [Cmd.MergeMetadata, hde, hue]
    simp only [Bool.false_eq_true, if_false]
    rw [mfind_mcopyInto _ _ _ hndu, mfind_mcopyInto _ _ _ hndd]
    cases Cmd.mfind u k <;> cases hfd : Cmd.mfind d k <;> simp [Cmd.mfind]

/-- Witness for C9: the user-supplied binding wins on the key collision
in a nonempty merge. -/
theorem C9_mergeMetadata_witness :
    Cmd.mfind (Cmd.MergeMetadata [("a", .str "1")] [("a", .str "2"), ("b", .str "3")]) "a" =
      some (.str "2") := by
  rw [C9_mergeMetadata_spec.2.2.1 [("a", .str "1")] [("a", .str "2"), ("b", .str "3")] "a"
    (by simp) (by simp) (by simp [Cmd.mkeys]) (by simp [Cmd.mkeys])]
  rfl
/-- The fixed probe order of the detection chain, as the spec states it:
each supported system paired with its marker predicate, most specific
first. -/
def probeOrder : List (String × (Cicd.Env → Bool)) :=
  [ (Cicd.SystemGitHub, fun env => env "GITHUB_ACTIONS" == "true"),
    (Cicd.SystemGitLab, fun env => env "GITLAB_CI" == "true"),
    (Cicd.SystemJenkins, fun env => env "JENKINS_URL" != ""),
    (Cicd.SystemCircleCI, fun env => env "CIRCLECI" == "true"),
    (Cicd.SystemBitbucket, fun env => env "BITBUCKET_BUILD_NUMBER" != ""),
    (Cicd.SystemAzure, fun env => env "TF_BUILD" == "True"),
    (Cicd.SystemTravis, fun env => env "TRAVIS" == "true"),
    (Cicd.SystemRundeck, fun env => env "RD_JOB_ID" != "") ]

/-- The first system of the probe list whose predicate holds, or
`unknown` when none does. -/
def firstMatch (env : Cicd.Env) : List (String × (Cicd.Env → Bool)) → String
  | [] => Cicd.SystemUnknown
  | (sys, p) :: rest => if p env then sys else firstMatch env rest

/-- C5: detection selects exactly one system, the first of the fixed
probe order github, gitlab, jenkins, circleci, bitbucket, azure-devops,
travis, rundeck whose marker matches; detection is a pure function of the
environment snapshot, and with no matching marker the system is `unknown`
and every other field of the result is empty. -/
theorem C5_detect_first_match :
    (∀ env : Cicd.Env, Cicd.detectSystem env = firstMatch env probeOrder) ∧
    (∀ env env2 : Cicd.Env, (∀ k, env k = env2 k) → Cicd.Detect env = Cicd.Detect env2) ∧
    (∀ env : Cicd.Env, Cicd.detectSystem env = Cicd.SystemUnknown →
      Cicd.Detect env = some
        { System := Cicd.SystemUnknown, Product := "", Version := "",
          SCMRepository := "", SCMSha := "", SCMBranch := "", BuildNumber := "",
          BuildURL := "", InvokeID := "", BuiltBy := "", BuiltByEmail := "",
          BuiltByName := "" }) := by
  refine ⟨?_, ?_, ?_⟩
  · intro env
    by_cases h1 : env "GITHUB_ACTIONS" = "true"
    · simp [Cicd.detectSystem, firstMatch, probeOrder, h1]
    · by_cases h2 : env "GITLAB_CI" = "true"
      · simp [Cicd.detectSystem, firstMatch, probeOrder, h1, h2]
      · by_cases h3 : env "JENKINS_URL" = ""
        · by_cases h4 : env "CIRCLECI" = "true"
          · simp [Cicd.detectSystem, firstMatch, probeOrder, h1, h2, h3, h4]
          · by_cases h5 : env "BITBUCKET_BUILD_NUMBER" = ""
            · by_cases h6 : env "TF_BUILD" = "True"
              · simp [Cicd.detectSystem, firstMatch, probeOrder, h1, h2, h3, h4, h5, h6]
              · by_cases h7 : env "TRAVIS" = "true"
                · simp [Cicd.detectSystem, firstMatch, probeOrder, h1, h2, h3, h4, h5, h6, h7]
                · by_cases h8 : env "RD_JOB_ID" = "" <;>
                    simp [Cicd.detectSystem, firstMatch, probeOrder, h1, h2, h3, h4, h5, h6, h7, h8]
            · simp [Cicd.detectSystem, firstMatch, probeOrder, h1, h2, h3, h5]
        · simp [Cicd.detectSystem, firstMatch, probeOrder, h1, h2, h3]
  · intro env env2 h
    exact congrArg Cicd.Detect (funext h)
  · intro env hs
    simp only [Cicd.Detect, hs]
    rfl

/-- Witness for C5: with both the GitHub and GitLab markers set, the
first probe wins. -/
theorem C5_detect_first_match_witness :
    Cicd.detectSystem
        (fun k => if k = "GITHUB_ACTIONS" then "true" else if k = "GITLAB_CI" then "true" else "") =
      Cicd.SystemGitHub ∧
    Cicd.Detect (fun _ => "") = some { System := Cicd.SystemUnknown } := by
  constructor
  · rw [C5_detect_first_match.1]
    rfl
  · exact C5_detect_first_match.2.2 (fun _ => "") rfl
/-- C6: under GitHub-Actions detection with a two-segment repository slug
and a commit SHA of at least 8 characters, `Detect` derives `Product`
from the segment after the slash and `Version` from the first 8 SHA
characters, and synthesizes `BuildURL` from the server URL, repository
and run ID only when all three are non-empty; if the server URL or the
run ID is absent, `BuildURL` is left empty. -/
theorem C6_detectGitHub_spec (env : Cicd.Env)
    (hmark : env "GITHUB_ACTIONS" = "true")
    (o r : String) (hrepo : Model.goSplit (env "GITHUB_REPOSITORY") '/' = [o, r])
    (hsha : env "GITHUB_SHA" ≠ "") (hlen : 8 ≤ (env "GITHUB_SHA").length) :
    ∃ d : Cicd.DetectedValues, Cicd.Detect env = some d ∧
      d.System = Cicd.SystemGitHub ∧
      d.Product = r ∧
      d.Version = Model.strTake (env "GITHUB_SHA") 8 ∧
      (env "GITHUB_SERVER_URL" ≠ "" ∧ env "GITHUB_RUN_ID" ≠ "" →
        d.BuildURL = env "GITHUB_SERVER_URL" ++ "/" ++ env "GITHUB_REPOSITORY"
          ++ "/actions/runs/" ++ env "GITHUB_RUN_ID") ∧
      ((env "GITHUB_SERVER_URL" = "" ∨ env "GITHUB_RUN_ID" = "") → d.BuildURL = "") := by
  have hdet : Cicd.detectSystem env = Cicd.SystemGitHub := by
    simp [Cicd.detectSystem, hmark]
  have hrne : env "GITHUB_REPOSITORY" ≠ "" := by
    intro h
    rw [h] at hrepo
    simp [Model.goSplit, Model.splitChar] at hrepo
  have hslice : Cicd.goSliceTo (env "GITHUB_SHA") 8 = some (Model.strTake (env "GITHUB_SHA") 8) := by
    simp [Cicd.goSliceTo, hlen]
  have hD : Cicd.Detect env = Cicd.detectGitHub env { System := Cicd.SystemGitHub } := by
    simp [Cicd.Detect, hdet]
  by_cases hs1 : env "GITHUB_SERVER_URL" = ""
  · refine ⟨{ System := Cicd.SystemGitHub, Product := r, Version := Model.strTake (env "GITHUB_SHA") 8, SCMRepository := env "GITHUB_REPOSITORY", SCMSha := env "GITHUB_SHA", SCMBranch := env "GITHUB_REF_NAME", BuildNumber := env "GITHUB_RUN_NUMBER", BuildURL := "", InvokeID := env "GITHUB_RUN_ID", BuiltBy := env "GITHUB_ACTOR" }, ?_, rfl, rfl, rfl, ?_, fun _ => rfl⟩
    · rw [hD]
      simp [Cicd.detectGitHub, hs1, hrne, hrepo, hsha, hslice]
    · intro hboth
      exact absurd hs1 hboth.1
  · by_cases hs2 : env "GITHUB_RUN_ID" = ""
    · refine ⟨{ System := Cicd.SystemGitHub, Product := r, Version := Model.strTake (env "GITHUB_SHA") 8, SCMRepository := env "GITHUB_REPOSITORY", SCMSha := env "GITHUB_SHA", SCMBranch := env "GITHUB_REF_NAME", BuildNumber := env "GITHUB_RUN_NUMBER", BuildURL := "", InvokeID := env "GITHUB_RUN_ID", BuiltBy := env "GITHUB_ACTOR" }, ?_, rfl, rfl, rfl, ?_, fun _ => rfl⟩
      · rw [hD]
        simp [Cicd.detectGitHub, hs1, hs2, hrne, hrepo, hsha, hslice]
      · intro hboth
        exact absurd hs2 hboth.2
    · refine ⟨{ System := Cicd.SystemGitHub, Product := r, Version := Model.strTake (env "GITHUB_SHA") 8, SCMRepository := env "GITHUB_REPOSITORY", SCMSha := env "GITHUB_SHA", SCMBranch := env "GITHUB_REF_NAME", BuildNumber := env "GITHUB_RUN_NUMBER", BuildURL := env "GITHUB_SERVER_URL" ++ "/" ++ env "GITHUB_REPOSITORY" ++ "/actions/runs/" ++ env "GITHUB_RUN_ID", InvokeID := env "GITHUB_RUN_ID", BuiltBy := env "GITHUB_ACTOR" }, ?_, rfl, rfl, rfl, fun _ => rfl, ?_⟩
      · rw [hD]
        simp [Cicd.detectGitHub, hs1, hs2, hrne, hrepo, hsha, hslice]
      · intro hor
        rcases hor with h | h
        · exact absurd h hs1
        · exact absurd h hs2

/-- Witness for C6 at a concrete GitHub-Actions environment. -/
theorem C6_detectGitHub_witness :
    ∃ d : Cicd.DetectedValues,
      Cicd.Detect (fun k =>
        if k = "GITHUB_ACTIONS" then "true"
        else if k = "GITHUB_REPOSITORY" then "org/repo"
        else if k = "GITHUB_SHA" then "abc123def4567890"
        else if k = "GITHUB_SERVER_URL" then "https://github.com"
        else if k = "GITHUB_RUN_ID" then "12345"
        else "") = some d ∧
      d.System = Cicd.SystemGitHub ∧
      d.Product = "repo" ∧
      d.Version = Model.strTake "abc123def4567890" 8 ∧
      (("https://github.com" : String) ≠ "" ∧ ("12345" : String) ≠ "" →
        d.BuildURL = "https://github.com" ++ "/" ++ "org/repo" ++ "/actions/runs/" ++ "12345") ∧
      ((("https://github.com" : String) = "" ∨ ("12345" : String) = "") → d.BuildURL = "") := by
  have h := C6_detectGitHub_spec (fun k =>
        if k = "GITHUB_ACTIONS" then "true"
        else if k = "GITHUB_REPOSITORY" then "org/repo"
        else if k = "GITHUB_SHA" then "abc123def4567890"
        else if k = "GITHUB_SERVER_URL" then "https://github.com"
        else if k = "GITHUB_RUN_ID" then "12345"
        else "") rfl "org" "repo" (by decide) (by decide) (by decide)
  simpa using h
set_option maxHeartbeats 4000000 in
/-- C10: the short-SHA version fallback is guarded only by the SHA being
non-empty: whenever one of the SHA-based systems (GitHub, GitLab,
CircleCI, Bitbucket, Travis) is detected and its commit-SHA variable
holds a non-empty string of fewer than 8 characters, the slice `sha[:8]`
is out of bounds and detection panics; detection succeeds exactly under
the precondition that the SHA is empty or at least 8 characters long. -/
theorem C10_short_sha_panic :
    (∀ env : Cicd.Env, Cicd.detectSystem env = Cicd.SystemGitHub →
      env "GITHUB_SHA" ≠ "" → (env "GITHUB_SHA").length < 8 →
      Cicd.Detect env = none) ∧
    (∀ env : Cicd.Env, Cicd.detectSystem env = Cicd.SystemGitLab →
      env "CI_COMMIT_SHA" ≠ "" → (env "CI_COMMIT_SHA").length < 8 →
      Cicd.Detect env = none) ∧
    (∀ env : Cicd.Env, Cicd.detectSystem env = Cicd.SystemCircleCI →
      env "CIRCLE_SHA1" ≠ "" → (env "CIRCLE_SHA1").length < 8 →
      Cicd.Detect env = none) ∧
    (∀ env : Cicd.Env, Cicd.detectSystem env = Cicd.SystemBitbucket →
      env "BITBUCKET_COMMIT" ≠ "" → (env "BITBUCKET_COMMIT").length < 8 →
      Cicd.Detect env = none) ∧
    (∀ env : Cicd.Env, Cicd.detectSystem env = Cicd.SystemTravis →
      env "TRAVIS_COMMIT" ≠ "" → (env "TRAVIS_COMMIT").length < 8 →
      Cicd.Detect env = none) ∧
    (∀ env : Cicd.Env, Cicd.detectSystem env = Cicd.SystemGitHub →
      (env "GITHUB_SHA" = "" ∨ 8 ≤ (env "GITHUB_SHA").length) →
      (Cicd.Detect env).isSome = true) ∧
    (∀ env : Cicd.Env, Cicd.detectSystem env = Cicd.SystemGitLab →
      (env "CI_COMMIT_SHA" = "" ∨ 8 ≤ (env "CI_COMMIT_SHA").length) →
      (Cicd.Detect env).isSome = true) ∧
    (∀ env : Cicd.Env, Cicd.detectSystem env = Cicd.SystemCircleCI →
      (env "CIRCLE_SHA1" = "" ∨ 8 ≤ (env "CIRCLE_SHA1").length) →
      (Cicd.Detect env).isSome = true) ∧
    (∀ env : Cicd.Env, Cicd.detectSystem env = Cicd.SystemBitbucket →
      (env "BITBUCKET_COMMIT" = "" ∨ 8 ≤ (env "BITBUCKET_COMMIT").length) →
      (Cicd.Detect env).isSome = true) ∧
    (∀ env : Cicd.Env, Cicd.detectSystem env = Cicd.SystemTravis →
      (env "TRAVIS_COMMIT" = "" ∨ 8 ≤ (env "TRAVIS_COMMIT").length) →
      (Cicd.Detect env).isSome = true) := by
  refine ⟨?_, ?_, ?_, ?_, ?_, ?_, ?_, ?_, ?_, ?_⟩
  · intro env hdet hne hlt
    have hgs : Cicd.goSliceTo (env "GITHUB_SHA") 8 = none := by
      rw [Cicd.goSliceTo, if_neg]
      omega
    have hD : Cicd.Detect env = Cicd.detectGitHub env { System := Cicd.SystemGitHub } := by
      simp only [Cicd.Detect, hdet]
      rfl
    rw [hD]
    simp only [Cicd.detectGitHub]
    rcases hsp : Model.goSplit (env "GITHUB_REPOSITORY") '/' with _ | ⟨a, _ | ⟨b, _ | ⟨c, tl⟩⟩⟩ <;> (repeat' split) <;> simp_all [hne, hgs]
  · intro env hdet hne hlt
    have hgs : Cicd.goSliceTo (env "CI_COMMIT_SHA") 8 = none := by
      rw [Cicd.goSliceTo, if_neg]
      omega
    have hD : Cicd.Detect env = Cicd.detectGitLab env { System := Cicd.SystemGitLab } := by
      simp only [Cicd.Detect, hdet]
      rfl
    rw [hD]
    simp only [Cicd.detectGitLab]
    rcases hsp : (Model.goSplit (env "CI_PROJECT_PATH") '/').getLast? with _ | p <;> (repeat' split) <;> simp_all [hne, hgs]
  · intro env hdet hne hlt
    have hgs : Cicd.goSliceTo (env "CIRCLE_SHA1") 8 = none := by
      rw [Cicd.goSliceTo, if_neg]
      omega
    have hD : Cicd.Detect env = Cicd.detectCircleCI env { System := Cicd.SystemCircleCI } := by
      simp only [Cicd.Detect, hdet]
      rfl
    rw [hD]
    simp only [Cicd.detectCircleCI]
    (repeat' split) <;> simp_all [hne, hgs]
  · intro env hdet hne hlt
    have hgs : Cicd.goSliceTo (env "BITBUCKET_COMMIT") 8 = none := by
      rw [Cicd.goSliceTo, if_neg]
      omega
    have hD : Cicd.Detect env = Cicd.detectBitbucket env { System := Cicd.SystemBitbucket } := by
      simp only [Cicd.Detect, hdet]
      rfl
    rw [hD]
    simp only [Cicd.detectBitbucket]
    (repeat' split) <;> simp_all [hne, hgs]
  · intro env hdet hne hlt
    have hgs : Cicd.goSliceTo (env "TRAVIS_COMMIT") 8 = none := by
      rw [Cicd.goSliceTo, if_neg]
      omega
    have hD : Cicd.Detect env = Cicd.detectTravis env { System := Cicd.SystemTravis } := by
      simp only [Cicd.Detect, hdet]
      rfl
    rw [hD]
    simp only [Cicd.detectTravis]
    rcases hsp : Model.goSplit (env "TRAVIS_REPO_SLUG") '/' with _ | ⟨a, _ | ⟨b, _ | ⟨c, tl⟩⟩⟩ <;> (repeat' split) <;> simp_all [hne, hgs]
  · intro env hdet hok
    have hD : Cicd.Detect env = Cicd.detectGitHub env { System := Cicd.SystemGitHub } := by
      simp only [Cicd.Detect, hdet]
      rfl
    rw [hD]
    rcases hok with h | h
    · simp only [Cicd.detectGitHub, h]
      rcases hsp : Model.goSplit (env "GITHUB_REPOSITORY") '/' with _ | ⟨a, _ | ⟨b, _ | ⟨c, tl⟩⟩⟩ <;> (repeat' split) <;> simp_all
    · have hgs : Cicd.goSliceTo (env "GITHUB_SHA") 8 = some (Model.strTake (env "GITHUB_SHA") 8) := by
        rw [Cicd.goSliceTo, if_pos h]
      simp only [Cicd.detectGitHub]
      rcases hsp : Model.goSplit (env "GITHUB_REPOSITORY") '/' with _ | ⟨a, _ | ⟨b, _ | ⟨c, tl⟩⟩⟩ <;> (repeat' split) <;> simp_all [hgs]
  · intro env hdet hok
    have hD : Cicd.Detect env = Cicd.detectGitLab env { System := Cicd.SystemGitLab } := by
      simp only [Cicd.Detect, hdet]
      rfl
    rw [hD]
    rcases hok with h | h
    · simp only [Cicd.detectGitLab, h]
      rcases hsp : (Model.goSplit (env "CI_PROJECT_PATH") '/').getLast? with _ | p <;> (repeat' split) <;> simp_all
    · have hgs : Cicd.goSliceTo (env "CI_COMMIT_SHA") 8 = some (Model.strTake (env "CI_COMMIT_SHA") 8) := by
        rw [Cicd.goSliceTo, if_pos h]
      simp only [Cicd.detectGitLab]
      rcases hsp : (Model.goSplit (env "CI_PROJECT_PATH") '/').getLast? with _ | p <;> (repeat' split) <;> simp_all [hgs]
  · intro env hdet hok
    have hD : Cicd.Detect env = Cicd.detectCircleCI env { System := Cicd.SystemCircleCI } := by
      simp only [Cicd.Detect, hdet]
      rfl
    rw [hD]
    rcases hok with h | h
    · simp only [Cicd.detectCircleCI, h]
      (repeat' split) <;> simp_all
    · have hgs : Cicd.goSliceTo (env "CIRCLE_SHA1") 8 = some (Model.strTake (env "CIRCLE_SHA1") 8) := by
        rw [Cicd.goSliceTo, if_pos h]
      simp only [Cicd.detectCircleCI]
      (repeat' split) <;> simp_all [hgs]
  · intro env hdet hok
    have hD : Cicd.Detect env = Cicd.detectBitbucket env { System := Cicd.SystemBitbucket } := by
      simp only [Cicd.Detect, hdet]
      rfl
    rw [hD]
    rcases hok with h | h
    · simp only [Cicd.detectBitbucket, h]
      (repeat' split) <;> simp_all
    · have hgs : Cicd.goSliceTo (env "BITBUCKET_COMMIT") 8 = some (Model.strTake (env "BITBUCKET_COMMIT") 8) := by
        rw [Cicd.goSliceTo, if_pos h]
      simp only [Cicd.detectBitbucket]
      (repeat' split) <;> simp_all [hgs]
  · intro env hdet hok
    have hD : Cicd.Detect env = Cicd.detectTravis env { System := Cicd.SystemTravis } := by
      simp only [Cicd.Detect, hdet]
      rfl
    rw [hD]
    rcases hok with h | h
    · simp only [Cicd.detectTravis, h]
      rcases hsp : Model.goSplit (env "TRAVIS_REPO_SLUG") '/' with _ | ⟨a, _ | ⟨b, _ | ⟨c, tl⟩⟩⟩ <;> (repeat' split) <;> simp_all
    · have hgs : Cicd.goSliceTo (env "TRAVIS_COMMIT") 8 = some (Model.strTake (env "TRAVIS_COMMIT") 8) := by
        rw [Cicd.goSliceTo, if_pos h]
      simp only [Cicd.detectTravis]
      rcases hsp : Model.goSplit (env "TRAVIS_REPO_SLUG") '/' with _ | ⟨a, _ | ⟨b, _ | ⟨c, tl⟩⟩⟩ <;> (repeat' split) <;> simp_all [hgs]

/-- Witness for C10: a 3-character SHA panics under GitHub detection; an
empty SHA is safe. -/
theorem C10_short_sha_panic_witness :
    Cicd.Detect (fun k => if k = "GITHUB_ACTIONS" then "true" else if k = "GITHUB_SHA" then "abc" else "") = none ∧
    (Cicd.Detect (fun k => if k = "GITHUB_ACTIONS" then "true" else "")).isSome = true := by
  constructor
  · exact C10_short_sha_panic.1 _ (by decide) (by decide) (by decide)
  · exact C10_short_sha_panic.2.2.2.2.2.1 _ (by decide) (Or.inl (by decide))
/-- Every run of the retry loop performs at most `budget` attempts, and
the delays it sleeps through are the next `attempts` entries of the
backoff schedule (one fewer for the run that starts at attempt 0, which
sleeps before retries only). -/
theorem doRequestGo_run_spec (send : Nat → Api.AttemptResult) :
    ∀ (budget attempt : Nat) (lastErr : Option Api.AttemptFail), attempt + budget = 4 →
      (Api.doRequestGo send budget attempt lastErr).attempts ≤ budget ∧
      (Api.doRequestGo send budget attempt lastErr).delays =
        (Api.backoffDurations.drop (attempt - 1)).take
          (if attempt = 0 then (Api.doRequestGo send budget attempt lastErr).attempts - 1
           else (Api.doRequestGo send budget attempt lastErr).attempts) := by
  intro budget
  induction budget with
  | zero =>
    intro attempt lastErr h4
    simp [Api.doRequestGo]
  | succ b ih =>
    intro attempt lastErr h4
    rcases hs : send attempt with _ | ⟨c, d⟩
    · obtain ⟨ihA, ihD⟩ := ih (attempt + 1) (some .network) (by omega)
      simp only [Api.doRequestGo, hs]
      refine ⟨by omega, ?_⟩
      rcases attempt with _ | a
      · simpa using ihD
      · simp only [Nat.add_eq, Nat.succ_ne_zero, if_false] at ihD ⊢
        have ha : a < 3 := by omega
        interval_cases a <;>
          simp_all [Api.backoffDurations, List.take_succ_cons]
    · by_cases h2 : 200 ≤ c ∧ c < 300
      · simp only [Api.doRequestGo, hs, if_pos h2]
        refine ⟨by omega, ?_⟩
        rcases attempt with _ | a
        · simp
        · have ha : a < 3 := by omega
          interval_cases a <;> simp [Api.backoffDurations]
      · by_cases h4x : 400 ≤ c ∧ c < 500 ∧ c ≠ 429
        · simp only [Api.doRequestGo, hs, if_neg h2, if_pos h4x]
          refine ⟨by omega, ?_⟩
          rcases attempt with _ | a
          · simp
          · have ha : a < 3 := by omega
            interval_cases a <;> simp [Api.backoffDurations]
        · obtain ⟨ihA, ihD⟩ := ih (attempt + 1) (some (.http c)) (by omega)
          simp only [Api.doRequestGo, hs, if_neg h2, if_neg h4x]
          refine ⟨by omega, ?_⟩
          rcases attempt with _ | a
          · simpa using ihD
          · simp only [Nat.add_eq, Nat.succ_ne_zero, if_false] at ihD ⊢
            have ha : a < 3 := by omega
            interval_cases a <;>
              simp_all [Api.backoffDurations, List.take_succ_cons]
/-- When every attempt fails with a retryable outcome, the loop consumes
its whole budget and surfaces the failure observed on the last
attempt. -/
theorem doRequestGo_exhaust (send : Nat → Api.AttemptResult) :
    ∀ (budget attempt : Nat) (lastErr : Option Api.AttemptFail), attempt + budget = 4 →
      (∀ i, attempt ≤ i → i < 4 → Api.isRetryableFailure (send i) = true) →
      (Api.doRequestGo send budget attempt lastErr).outcome =
        .failedAfterRetries (match budget with
          | 0 => lastErr
          | _ + 1 => Api.toFail (send 3)) ∧
      (Api.doRequestGo send budget attempt lastErr).attempts = budget := by
  intro budget
  induction budget with
  | zero =>
    intro attempt lastErr h4 hr
    simp [Api.doRequestGo]
  | succ b ih =>
    intro attempt lastErr h4 hr
    have hretry := hr attempt (le_refl _) (by omega)
    rcases hs : send attempt with _ | ⟨c, d⟩
    · obtain ⟨ihO, ihA⟩ := ih (attempt + 1) (some .network)
        (by omega) (fun i h1 h2 => hr i (by omega) h2)
      simp only [Api.doRequestGo, hs]
      refine ⟨?_, by simpa using ihA⟩
      rcases b with _ | b2
      · have h3 : attempt = 3 := by omega
        subst h3
        rw [ihO]
        simp [hs, Api.toFail]
      · simpa using ihO
    · rw [hs, Api.isRetryableFailure] at hretry
      have hcond := of_decide_eq_true hretry
      simp only [Api.doRequestGo, hs, if_neg hcond.1, if_neg hcond.2]
      obtain ⟨ihO, ihA⟩ := ih (attempt + 1) (some (.http c))
        (by omega) (fun i h1 h2 => hr i (by omega) h2)
      refine ⟨?_, by simpa using ihA⟩
      rcases b with _ | b2
      · have h3 : attempt = 3 := by omega
        subst h3
        rw [ihO]
        simp [hs, Api.toFail]
      · simpa using ihO
/-- C3: the submission retry loop performs at most 4 attempts, sleeping
the fixed delays 1s, 2s, 4s before the 2nd, 3rd and 4th attempts; a 2xx
response ends the loop immediately as success; the scripted sequence
[500, 500, 200] takes exactly 3 attempts with delays 1s and 2s and
succeeds; and when all 4 attempts fail with retryable outcomes, the
failure of the last attempt is surfaced. -/
theorem C3_doRequest_schedule :
    (∀ send : Nat → Api.AttemptResult,
      (Api.doRequest send).attempts ≤ 4 ∧
      (Api.doRequest send).delays =
        Api.backoffDurations.take ((Api.doRequest send).attempts - 1)) ∧
    (∀ (send : Nat → Api.AttemptResult) (code : Nat) (detail : Model.Json),
      send 0 = .response code detail → 200 ≤ code → code < 300 →
      Api.doRequest send = { outcome := .resp code detail, attempts := 1, delays := [] }) ∧
    Api.doRequest (Api.seqOf [.response 500 .null, .response 500 .null, .response 200 (.obj [])]) =
      { outcome := .resp 200 (.obj []), attempts := 3, delays := [1, 2] } ∧
    (∀ send : Nat → Api.AttemptResult,
      (∀ i, i < 4 → Api.isRetryableFailure (send i) = true) →
      (Api.doRequest send).outcome = .failedAfterRetries (Api.toFail (send 3)) ∧
      (Api.doRequest send).attempts = 4 ∧
      (Api.doRequest send).delays = [1, 2, 4]) := by
  refine ⟨?_, ?_, rfl, ?_⟩
  · intro send
    obtain ⟨hA, hD⟩ := doRequestGo_run_spec send 4 0 none rfl
    exact ⟨hA, by simpa using hD⟩
  · intro send code detail h h1 h2
    rw [Api.doRequest]
    simp only [Api.doRequestGo, h]
    rw [if_pos ⟨h1, h2⟩]
    simp
  · intro send hr
    obtain ⟨hO, hA⟩ := doRequestGo_exhaust send 4 0 none rfl (fun i _ h2 => hr i h2)
    obtain ⟨_, hD⟩ := doRequestGo_run_spec send 4 0 none rfl
    rw [Api.doRequest]
    refine ⟨hO, hA, ?_⟩
    rw [hD, hA]
    rfl

/-- Witness for C3 at concrete transports: the bound and schedule at the
[500, 500, 200] script, immediate success at a 204 script, and the
exhausted all-429 script surfacing the last HTTP failure. -/
theorem C3_doRequest_schedule_witness :
    (Api.doRequest (Api.seqOf [.response 500 .null, .response 500 .null, .response 200 (.obj [])])).attempts ≤ 4 ∧
    Api.doRequest (Api.seqOf [.response 204 .null]) =
      { outcome := .resp 204 .null, attempts := 1, delays := [] } ∧
    (Api.doRequest (Api.seqOf [.response 429 .null, .response 429 .null, .response 429 .null, .response 429 .null])).outcome =
      .failedAfterRetries (Api.toFail (Api.seqOf [.response 429 .null, .response 429 .null, .response 429 .null, .response 429 .null] 3)) := by
  refine ⟨(C3_doRequest_schedule.1 _).1, ?_, ?_⟩
  · exact C3_doRequest_schedule.2.1 _ 204 .null rfl (by decide) (by decide)
  · exact (C3_doRequest_schedule.2.2.2 _ (by intro i hi; interval_cases i <;> decide)).1
/-- C4: a 4xx response other than 429 ends the retry loop with no further
attempt ([404] gives exactly 1 attempt), while 429, 5xx and transport
errors are retryable; four 429 responses consume the whole budget of 4
attempts and end in a failure or a NotRecorded placeholder, never in a
Recorded outcome. -/
theorem C4_doRequest_4xx :
    (∀ (send : Nat → Api.AttemptResult) (code : Nat) (detail : Model.Json),
      send 0 = .response code detail → 400 ≤ code → code < 500 → code ≠ 429 →
      Api.doRequest send = { outcome := .resp code detail, attempts := 1, delays := [] }) ∧
    Api.doRequest (Api.seqOf [.response 404 .null]) =
      { outcome := .resp 404 .null, attempts := 1, delays := [] } ∧
    (∀ detail : Model.Json, Api.isRetryableFailure (.response 429 detail) = true) ∧
    (∀ (code : Nat) (detail : Model.Json), 500 ≤ code → code < 600 →
      Api.isRetryableFailure (.response code detail) = true) ∧
    Api.isRetryableFailure .transportErr = true ∧
    (Api.doRequest (Api.seqOf [.response 429 .null, .response 429 .null, .response 429 .null, .response 429 .null])).attempts = 4 ∧
    Api.submitDeployment true (Api.seqOf [.response 429 .null, .response 429 .null, .response 429 .null, .response 429 .null]) =
      .Failed (.transport (some (.http 429))) ∧
    Api.submitDeployment false (Api.seqOf [.response 429 .null, .response 429 .null, .response 429 .null, .response 429 .null]) =
      .NotRecorded Api.placeholderDeployment ∧
    (∀ (f : Bool) (body : Model.Json),
      Api.submitDeployment f (Api.seqOf [.response 429 .null, .response 429 .null, .response 429 .null, .response 429 .null]) ≠
        .Recorded body) := by
  refine ⟨?_, rfl, fun detail => rfl, ?_, rfl, rfl, rfl, rfl, ?_⟩
  · intro send code detail h h1 h2 h3
    rw [Api.doRequest]
    simp only [Api.doRequestGo, h]
    rw [if_neg (by omega), if_pos ⟨h1, h2, h3⟩]
    simp
  · intro code detail h1 h2
    rw [Api.isRetryableFailure]
    refine decide_eq_true ⟨by omega, by omega⟩
  · intro f body
    cases f <;> simp [Api.submitDeployment, Api.doRequest, Api.doRequestGo, Api.seqOf]

/-- Witness for C4 at the concrete 404 script. -/
theorem C4_doRequest_4xx_witness :
    Api.doRequest (Api.seqOf [.response 404 .null]) =
      { outcome := .resp 404 .null, attempts := 1, delays := [] } ∧
    Api.isRetryableFailure (.response 503 .null) = true ∧
    Api.submitDeployment true (Api.seqOf [.response 429 .null, .response 429 .null, .response 429 .null, .response 429 .null]) ≠
      .Recorded (.obj []) := by
  refine ⟨?_, ?_, ?_⟩
  · exact C4_doRequest_4xx.1 _ 404 .null rfl (by decide) (by decide) (by decide)
  · exact C4_doRequest_4xx.2.2.2.1 503 .null (by decide) (by decide)
  · exact C4_doRequest_4xx.2.2.2.2.2.2.2.2 true (.obj [])
/-- C1: a response with status 409, 423 or 428 is classified as a
preflight policy rejection and surfaced as an error regardless of the
`failOnAPIError` flag: `handleAPIError` never downgrades it to the
placeholder, the whole submission yields `Rejected` (which is a distinct
outcome from `NotRecorded`), the retry loop performs no further attempt,
and the caller maps it to exit code 5. -/
theorem C1_preflight_rejected (code : Nat)
    (hc : code = 409 ∨ code = 423 ∨ code = 428) :
    ∀ (failFlag : Bool) (detail : Model.Json),
      Api.APIError.IsPreflightError { StatusCode := code, Detail := detail } = true ∧
      Api.handleAPIError failFlag { StatusCode := code, Detail := detail } =
        .error { StatusCode := code, Detail := detail } ∧
      Api.handleAPIErrorBuild failFlag { StatusCode := code, Detail := detail } =
        .error { StatusCode := code, Detail := detail } ∧
      (∀ send : Nat → Api.AttemptResult, send 0 = .response code detail →
        Api.doRequest send = { outcome := .resp code detail, attempts := 1, delays := [] }) ∧
      Api.submitDeployment failFlag (Api.seqOf [.response code detail]) =
        .Rejected { StatusCode := code, Detail := detail } ∧
      (∀ r : Api.DeploymentResponse,
        Api.SubmissionOutcome.Rejected { StatusCode := code, Detail := detail } ≠ .NotRecorded r) ∧
      Api.deploymentExitCode (.Rejected { StatusCode := code, Detail := detail }) = 5 := by
  intro failFlag detail
  have hpf : Api.APIError.IsPreflightError { StatusCode := code, Detail := detail } = true := by
    rcases hc with h | h | h <;> subst h <;> rfl
  have hha : Api.handleAPIError failFlag { StatusCode := code, Detail := detail } =
      .error { StatusCode := code, Detail := detail } := by
    rw [Api.handleAPIError, if_pos hpf]
  have hhb : Api.handleAPIErrorBuild failFlag { StatusCode := code, Detail := detail } =
      .error { StatusCode := code, Detail := detail } := by
    rw [Api.handleAPIErrorBuild, if_pos hpf]
  have hdo : ∀ send : Nat → Api.AttemptResult, send 0 = .response code detail →
      Api.doRequest send = { outcome := .resp code detail, attempts := 1, delays := [] } := by
    intro send h
    rw [Api.doRequest]
    simp only [Api.doRequestGo, h]
    rw [if_neg (by rcases hc with h | h | h <;> omega),
      if_pos ⟨by rcases hc with h | h | h <;> omega, by rcases hc with h | h | h <;> omega,
        by rcases hc with h | h | h <;> omega⟩]
    simp
  refine ⟨hpf, hha, hhb, hdo, ?_, ?_, rfl⟩
  · have h2xx : ¬(200 ≤ code ∧ code < 300) := by rcases hc with h | h | h <;> omega
    rw [Api.submitDeployment, hdo (Api.seqOf [.response code detail]) rfl]
    simp [h2xx, hha, Api.classifyError, hpf]
  · intro r
    simp

/-- Witness for C1 at status 409 with soft-fail enabled. -/
theorem C1_preflight_rejected_witness :
    Api.handleAPIError false { StatusCode := 409, Detail := .str "preflight check failed" } =
      .error { StatusCode := 409, Detail := .str "preflight check failed" } ∧
    Api.submitDeployment false (Api.seqOf [.response 409 (.str "preflight check failed")]) =
      .Rejected { StatusCode := 409, Detail := .str "preflight check failed" } ∧
    Api.deploymentExitCode
      (.Rejected { StatusCode := 409, Detail := .str "preflight check failed" }) = 5 := by
  obtain ⟨h1, h2, h3, h4, h5, h6, h7⟩ :=
    C1_preflight_rejected 409 (Or.inl rfl) false (.str "preflight check failed")
  exact ⟨h2, h5, h7⟩
/-- C2: every non-policy-rejection API error respects `failOnAPIError`:
with the flag false, `handleAPIError` downgrades it to the placeholder
result whose status is the fixed sentinel `not_recorded` and whose
resource identifiers are all empty (and a whole submission ends in
`NotRecorded`, also on exhausted retries); with the flag true, the same
errors are surfaced as failures. -/
theorem C2_softfail_downgrade :
    (∀ e : Api.APIError, e.IsPreflightError = false →
      Api.handleAPIError false e = .ok Api.placeholderDeployment ∧
      Api.handleAPIError true e = .error e ∧
      Api.handleAPIErrorBuild false e = .ok Api.placeholderBuild ∧
      Api.handleAPIErrorBuild true e = .error e) ∧
    (∀ code : Nat, (code = 401 ∨ code = 403 ∨ code = 404 ∨ code = 422 ∨ code = 500) →
      ∀ detail : Model.Json,
        Api.APIError.IsPreflightError { StatusCode := code, Detail := detail } = false) ∧
    Api.placeholderDeployment.Status = "not_recorded" ∧
    Api.placeholderDeployment.ID = "" ∧
    Api.placeholderDeployment.ProductID = "" ∧
    Api.placeholderDeployment.VersionID = "" ∧
    Api.placeholderDeployment.EnvironmentID = "" ∧
    Api.placeholderBuild.Status = "not_recorded" ∧
    Api.placeholderBuild.ID = "" ∧
    Api.placeholderBuild.ProductID = "" ∧
    Api.placeholderBuild.VersionID = "" ∧
    (∀ (code : Nat) (detail : Model.Json),
      400 ≤ code → code < 500 → code ≠ 429 → ¬(code = 409 ∨ code = 423 ∨ code = 428) →
      Api.submitDeployment false (Api.seqOf [.response code detail]) =
        .NotRecorded Api.placeholderDeployment ∧
      Api.submitDeployment true (Api.seqOf [.response code detail]) =
        .Failed (.api { StatusCode := code, Detail := detail })) ∧
    (∀ (send : Nat → Api.AttemptResult) (lastErr : Option Api.AttemptFail),
      (Api.doRequest send).outcome = .failedAfterRetries lastErr →
      Api.submitDeployment false send = .NotRecorded Api.placeholderDeployment ∧
      Api.submitDeployment true send = .Failed (.transport lastErr)) := by
  refine ⟨?_, ?_, rfl, rfl, rfl, rfl, rfl, rfl, rfl, rfl, rfl, ?_, ?_⟩
  · intro e hpf
    rw [Api.handleAPIError, Api.handleAPIError, Api.handleAPIErrorBuild,
      Api.handleAPIErrorBuild, hpf]
    simp
  · intro code hc detail
    rcases hc with h | h | h | h | h <;> subst h <;> rfl
  · intro code detail h1 h2 h3 hnp
    have hpf : Api.APIError.IsPreflightError { StatusCode := code, Detail := detail } = false := by
      rw [Api.APIError.IsPreflightError]
      simp only [Bool.or_eq_false_iff, beq_eq_false_iff_ne]
      push_neg at hnp
      exact ⟨⟨hnp.1, hnp.2.1⟩, hnp.2.2⟩
    have h2xx : ¬(200 ≤ code ∧ code < 300) := by omega
    have hdo : Api.doRequest (Api.seqOf [.response code detail]) =
        { outcome := .resp code detail, attempts := 1, delays := [] } := by
      rw [Api.doRequest]
      have hseq : Api.seqOf [Api.AttemptResult.response code detail] 0 =
          .response code detail := rfl
      simp only [Api.doRequestGo, hseq]
      rw [if_neg (by omega), if_pos ⟨h1, h2, h3⟩]
      simp
    constructor <;>
      (rw [Api.submitDeployment, hdo]
       simp [h2xx, Api.handleAPIError, hpf, Api.classifyError])
  · intro send lastErr h
    constructor <;> simp [Api.submitDeployment, h]

/-- Witness for C2: a 401 is downgraded to the placeholder with the flag
off and surfaced with the flag on; full transport exhaustion is
downgraded the same way. -/
theorem C2_softfail_downgrade_witness :
    Api.handleAPIError false { StatusCode := 401, Detail := .str "Unauthorized" } =
      .ok Api.placeholderDeployment ∧
    Api.handleAPIError true { StatusCode := 401, Detail := .str "Unauthorized" } =
      .error { StatusCode := 401, Detail := .str "Unauthorized" } ∧
    Api.submitDeployment false (Api.seqOf [.response 404 .null]) =
      .NotRecorded Api.placeholderDeployment ∧
    Api.submitDeployment false (Api.seqOf []) = .NotRecorded Api.placeholderDeployment := by
  obtain ⟨ha, hb, _, _⟩ :=
    C2_softfail_downgrade.1 { StatusCode := 401, Detail := .str "Unauthorized" } rfl
  obtain ⟨hc, _⟩ := C2_softfail_downgrade.2.2.2.2.2.2.2.2.2.2.2.1 404 .null
    (by decide) (by decide) (by decide) (by decide)
  obtain ⟨hd, _⟩ := C2_softfail_downgrade.2.2.2.2.2.2.2.2.2.2.2.2 (Api.seqOf []) 
    (some .network) rfl
  exact ⟨ha, hb, hc, hd⟩
